import Mathlib

/-!
Verification of the bustubx storage-engine core against its specification.

The Rust sources shallowly embedded here:
  - src/bustubx/src/buffer/page.rs         (Page, INVALID_PAGE_ID, BUSTUBX_PAGE_SIZE)
  - src/bustubx/src/primer/hyperloglog.rs  (HyperLogLog)
  - src/bustubx/src/planner/logical_plan_v2/mod.rs (LogicalPlanV2::schema)
  - src/bustubx/src/catalog/column.rs      (Column and its PartialEq)
Rust machine integers (u32 page ids and pin counts, u64 hashes and buckets)
are embedded as Nat; the embedded operations only store, copy, compare,
shift and take maxima of these values, so no wrap-around arises in any
embedded operation and the Nat embedding agrees with the machine one on
the u64/u32 range.  Rust constructs that can abort (todo markers,
unwrap on a fallible conversion, overflowing shifts, out-of-bounds
indexing) are embedded as Option, with none standing for the abort.
-/

/-- PageId is u32 in the source; embedded as Nat (the page operations only
store and copy identifiers, never compute with them). -/
def INVALID_PAGE_ID : Nat := 0

def BUSTUBX_PAGE_SIZE : Nat := 4096

/-- The Page struct of src/bustubx/src/buffer/page.rs: a page identifier,
a byte buffer of BUSTUBX_PAGE_SIZE bytes, a pin count and a dirty flag.
The Rust field is a fixed-length array; here the buffer is a list whose
length-4096 invariant is proved (claim C7) rather than carried by the type. -/
structure Page where
  page_id : Nat
  data : List Nat
  pin_count : Nat
  is_dirty : Bool
deriving Repr, DecidableEq

/-- Page::new(page_id): zeroed data, pin_count 0, not dirty. -/
def Page.new (page_id : Nat) : Page :=
  { page_id := page_id
    data := List.replicate BUSTUBX_PAGE_SIZE 0
    pin_count := 0
    is_dirty := false }

/-- Page::empty(): Page::new(INVALID_PAGE_ID). -/
def Page.empty : Page := Page.new INVALID_PAGE_ID

/-- Page::destroy(&mut self): sets page_id to 0, zeroes the data, resets
pin_count and is_dirty.  It takes no new identifier.  Embedded as the
function from the prior state to the updated state. -/
def Page.destroy (_p : Page) : Page :=
  { page_id := 0
    data := List.replicate BUSTUBX_PAGE_SIZE 0
    pin_count := 0
    is_dirty := false }

/-- Page::replace(&mut self, other): copies every field of other into self. -/
def Page.replace (_p : Page) (other : Page) : Page :=
  { page_id := other.page_id
    data := other.data
    pin_count := other.pin_count
    is_dirty := other.is_dirty }

/-- Claim C4: Page::new(p) yields page_id = p, a 4096-byte all-zero data
buffer, pin_count 0 and is_dirty false. -/
theorem c4_page_new (p : Nat) :
    (Page.new p).page_id = p ∧
    (Page.new p).data = List.replicate BUSTUBX_PAGE_SIZE 0 ∧
    (Page.new p).data.length = 4096 ∧
    (Page.new p).pin_count = 0 ∧
    (Page.new p).is_dirty = false := by
  refine ⟨rfl, rfl, ?_, rfl, rfl⟩
  show (List.replicate BUSTUBX_PAGE_SIZE 0).length = 4096
  rw [List.length_replicate]
  rfl

/-- Claim C2, counterexample: the claim says destroy on a page with a new
identifier new_id leaves page_id = new_id; at p = Page::new(5) and
new_id = 1 the code leaves page_id = 0, not 1. -/
theorem c2_counterexample : ¬ ((Page.destroy (Page.new 5)).page_id = 1) := by
  decide

/-- Claim C2 (amended): Page::destroy takes no new identifier; it always
resets page_id to 0 (the invalid sentinel), zeroes the data buffer, and
clears pin_count and is_dirty. -/
theorem c2_destroy_resets (p : Page) :
    (Page.destroy p).page_id = INVALID_PAGE_ID ∧
    (Page.destroy p).data = List.replicate BUSTUBX_PAGE_SIZE 0 ∧
    (Page.destroy p).pin_count = 0 ∧
    (Page.destroy p).is_dirty = false :=
  ⟨rfl, rfl, rfl, rfl⟩

/-- Claim C5: every Page operation is total, returning a fully determined
page with no error value: empty is new at the invalid identifier, destroy
always yields the empty page, replace yields exactly the other page, and
new yields the record of C4. -/
theorem c5_page_ops_total (pid : Nat) (p q : Page) :
    Page.empty = Page.new INVALID_PAGE_ID ∧
    Page.destroy p = Page.empty ∧
    Page.replace p q = q ∧
    Page.new pid =
      { page_id := pid
        data := List.replicate BUSTUBX_PAGE_SIZE 0
        pin_count := 0
        is_dirty := false } :=
  ⟨rfl, rfl, rfl, rfl⟩

/-- Claim C6: INVALID_PAGE_ID is 0 and Page::empty carries it. -/
theorem c6_invalid_page_id :
    INVALID_PAGE_ID = 0 ∧ Page.empty.page_id = INVALID_PAGE_ID :=
  ⟨rfl, rfl⟩

/-- Claim C7: the page-size constant is 4096 and the data buffer of every
page produced by the Page operations has exactly that length (for replace,
given that the source page satisfies it). -/
theorem c7_page_size (pid : Nat) (p q : Page)
    (h : q.data.length = BUSTUBX_PAGE_SIZE) :
    BUSTUBX_PAGE_SIZE = 4096 ∧
    (Page.new pid).data.length = BUSTUBX_PAGE_SIZE ∧
    Page.empty.data.length = BUSTUBX_PAGE_SIZE ∧
    (Page.destroy p).data.length = BUSTUBX_PAGE_SIZE ∧
    (Page.replace p q).data.length = BUSTUBX_PAGE_SIZE := by
  refine ⟨rfl, ?_, ?_, ?_, h⟩ <;>
    exact List.length_replicate BUSTUBX_PAGE_SIZE 0

/-- Claim C7, witness: the theorem applied at concrete pages. -/
theorem c7_page_size_witness :
    BUSTUBX_PAGE_SIZE = 4096 ∧
    (Page.new 7).data.length = BUSTUBX_PAGE_SIZE ∧
    Page.empty.data.length = BUSTUBX_PAGE_SIZE ∧
    (Page.destroy (Page.new 1)).data.length = BUSTUBX_PAGE_SIZE ∧
    (Page.replace (Page.new 1) (Page.new 2)).data.length = BUSTUBX_PAGE_SIZE :=
  c7_page_size 7 (Page.new 1) (Page.new 2)
    (List.length_replicate BUSTUBX_PAGE_SIZE 0)

/-- BITSET_CAPACITY of src/bustubx/src/primer/hyperloglog.rs: the u64 width. -/
def BITSET_CAPACITY : Nat := 64

/-- The HyperLogLog struct: register width n_bits (u16), the bucket vector
(u64 values, embedded as Nat), and the stored cardinality estimate.  The
hash of a key is passed in as a Nat below 2^64, standing for the value of
DefaultHasher on the key (deterministic for a fixed key). -/
structure HyperLogLog where
  n_bits : Nat
  buckets : List Nat
  cardinality : Nat
deriving Repr, DecidableEq

/-- Bit length of a u64 value: the index of its highest set bit plus one,
0 for 0.  Agrees with 64 - leading_zeros on the u64 range. -/
def u64BitLen (x : Nat) : Nat :=
  (List.range 64).foldl (fun acc i => if 2 ^ i ≤ x then i + 1 else acc) 0

/-- u64::leading_zeros, on values below 2^64. -/
def leading_zeros64 (x : Nat) : Nat :=
  BITSET_CAPACITY - u64BitLen x

/-- HyperLogLog::position_of_leftmost_one: BITSET_CAPACITY - leading_zeros. -/
def position_of_leftmost_one (bset : Nat) : Nat :=
  BITSET_CAPACITY - leading_zeros64 bset

/-- HyperLogLog::new(n_bits: i16).  In the source, num_buckets is computed
as 1 << n_bits on a 32-bit integer: a negative shift amount or one of 32 or
more overflows the shift (an abort); at n_bits = 31 the shifted value is
negative and the vec allocation of its usize cast aborts; and for negative
n_bits the try_into().unwrap() to u16 aborts as well.  none stands for any
of these aborts. -/
def HyperLogLog.new (n_bits : Int) : Option HyperLogLog :=
  if n_bits < 0 ∨ 32 ≤ n_bits then none
  else if n_bits = 31 then none
  else
    some { n_bits := n_bits.toNat
           buckets := List.replicate (2 ^ n_bits.toNat) 0
           cardinality := 0 }

/-- HyperLogLog::get_cardinality: reads the stored estimate. -/
def HyperLogLog.get_cardinality (s : HyperLogLog) : Nat :=
  s.cardinality

/-- HyperLogLog::add_elem, as a function of the hash of the added value.
In the source: the bucket index is hash >> (BITSET_CAPACITY - n_bits) and
the bucket is updated to the max of its value and position_of_leftmost_one
of the hash.  The u64 subtraction BITSET_CAPACITY - n_bits aborts when
n_bits > 64, the right shift aborts when its amount reaches 64 (n_bits = 0),
and the vector indexing aborts when the index is out of bounds; none stands
for these aborts. -/
def HyperLogLog.add_elem (s : HyperLogLog) (hash : Nat) : Option HyperLogLog :=
  if 64 < s.n_bits then none
  else if BITSET_CAPACITY - s.n_bits = 64 then none
  else if hash / 2 ^ (BITSET_CAPACITY - s.n_bits) < s.buckets.length then
    some { s with buckets := s.buckets.set (hash / 2 ^ (BITSET_CAPACITY - s.n_bits)) (Nat.max (s.buckets.getD (hash / 2 ^ (BITSET_CAPACITY - s.n_bits)) 0) (position_of_leftmost_one hash)) }
  else none

theorem list_getD_set_self (l : List Nat) (i v d : Nat) (h : i < l.length) :
    (l.set i v).getD i d = v := by
  induction l generalizing i with
  | nil => simp at h
  | cons a t ih =>
    cases i with
    | zero => simp
    | succ j =>
      simp only [List.set, List.getD_cons_succ]
      exact ih j (by simpa using h)

/-- The planner's LogicalPlanV2 enum of
src/bustubx/src/planner/logical_plan_v2/mod.rs.  S stands for the
SchemaRef type; the variant payloads live in planner submodules that are
not under src/, and schema() reads only the fields carried here (the
other payload fields are matched with .. in the source). -/
inductive LogicalPlanV2 (S : Type) : Type where
  | createTable : LogicalPlanV2 S
  | createIndex : LogicalPlanV2 S
  | filter (input : LogicalPlanV2 S) : LogicalPlanV2 S
  | insert : LogicalPlanV2 S
  | join (schema : S) : LogicalPlanV2 S
  | limit (input : LogicalPlanV2 S) : LogicalPlanV2 S
  | project (schema : S) : LogicalPlanV2 S
  | tableScan (table_schema : S) : LogicalPlanV2 S
  | sort (input : LogicalPlanV2 S) : LogicalPlanV2 S
  | values (schema : S) : LogicalPlanV2 S
  | emptyRelation (schema : S) : LogicalPlanV2 S
deriving Repr, DecidableEq

/-- LogicalPlanV2::schema.  The CreateTable, CreateIndex and Insert arms of
the source are todo!(), which aborts; none stands for that abort and is
propagated through the recursive arms (Filter, Limit, Sort). -/
def LogicalPlanV2.schema {S : Type} : LogicalPlanV2 S → Option S
  | .createTable => none
  | .createIndex => none
  | .filter input => input.schema
  | .insert => none
  | .join s => some s
  | .limit input => input.schema
  | .project s => some s
  | .tableScan s => some s
  | .sort input => input.schema
  | .values s => some s
  | .emptyRelation s => some s

/-- Claim C1: evaluation of the code at inputs on which it aborts.
HyperLogLog::new(-2) aborts (negative shift amount, failing unwrap) even
though the repository's own edge_test_1 expects it to return; and
LogicalPlanV2::schema hits todo!() on the CreateTable variant.  So the
listed operations are not total and the claim fails on the code. -/
theorem c1_operations_abort :
    HyperLogLog.new (-2) = none ∧
    LogicalPlanV2.schema (LogicalPlanV2.createTable : LogicalPlanV2 Nat) = none ∧
    LogicalPlanV2.schema (LogicalPlanV2.insert : LogicalPlanV2 Nat) = none := by
  refine ⟨?_, rfl, rfl⟩
  decide

/-- Claim C8: add_elem is idempotent: adding the same value (hence the same
hash) twice in a row, in the abort-propagating Option monad, equals adding
it once, because the bucket is updated by a maximum. -/
theorem c8_add_elem_idempotent (s : HyperLogLog) (hash : Nat) :
    (HyperLogLog.add_elem s hash).bind (fun t => HyperLogLog.add_elem t hash) =
      HyperLogLog.add_elem s hash := by
  by_cases h1 : 64 < s.n_bits
  · simp [HyperLogLog.add_elem, h1]
  · by_cases h2 : BITSET_CAPACITY - s.n_bits = 64
    · simp [HyperLogLog.add_elem, h1, h2]
    · by_cases h3 : hash / 2 ^ (BITSET_CAPACITY - s.n_bits) < s.buckets.length
      · simp [HyperLogLog.add_elem, h1, h2, h3,
          list_getD_set_self s.buckets _ _ 0 h3, List.set_set,
          Nat.max_assoc, Nat.max_self]
      · simp [HyperLogLog.add_elem, h1, h2, h3]

theorem add_elem_cardinality (s t : HyperLogLog) (hash : Nat)
    (h : HyperLogLog.add_elem s hash = some t) :
    t.cardinality = s.cardinality := by
  by_cases h1 : 64 < s.n_bits
  · simp [HyperLogLog.add_elem, h1] at h
  · by_cases h2 : BITSET_CAPACITY - s.n_bits = 64
    · simp [HyperLogLog.add_elem, h1, h2] at h
    · by_cases h3 : hash / 2 ^ (BITSET_CAPACITY - s.n_bits) < s.buckets.length
      · simp [HyperLogLog.add_elem, h1, h2, h3] at h
        rw [← h]
      · simp [HyperLogLog.add_elem, h1, h2, h3] at h

theorem foldlM_add_elem_cardinality (l : List Nat) (s u : HyperLogLog)
    (h : List.foldlM HyperLogLog.add_elem s l = some u) :
    u.cardinality = s.cardinality := by
  induction l generalizing s with
  | nil =>
    simp [List.foldlM] at h
    rw [← h]
  | cons a t ih =>
    rw [List.foldlM_cons] at h
    cases hh : HyperLogLog.add_elem s a with
    | none => rw [hh] at h; simp at h
    | some s2 =>
      rw [hh] at h
      rw [Option.bind_eq_bind, Option.some_bind] at h
      exact (ih s2 h).trans (add_elem_cardinality s s2 a hh)

/-- Claim C9: add_elem never changes the stored cardinality that
get_cardinality reports, neither a single call nor any sequence of calls;
only compute_cardinality writes that field. -/
theorem c9_cardinality_frame (s t u : HyperLogLog) (hash : Nat) (l : List Nat)
    (h1 : HyperLogLog.add_elem s hash = some t)
    (h2 : List.foldlM HyperLogLog.add_elem s l = some u) :
    HyperLogLog.get_cardinality t = HyperLogLog.get_cardinality s ∧
    HyperLogLog.get_cardinality u = HyperLogLog.get_cardinality s :=
  ⟨add_elem_cardinality s t hash h1, foldlM_add_elem_cardinality l s u h2⟩

/-- Claim C9, witness: the theorem applied at a concrete state and hash. -/
theorem c9_cardinality_frame_witness :
    HyperLogLog.get_cardinality { n_bits := 1, buckets := [1, 0], cardinality := 7 } =
      HyperLogLog.get_cardinality { n_bits := 1, buckets := [0, 0], cardinality := 7 } ∧
    HyperLogLog.get_cardinality { n_bits := 1, buckets := [0, 0], cardinality := 7 } =
      HyperLogLog.get_cardinality { n_bits := 1, buckets := [0, 0], cardinality := 7 } :=
  c9_cardinality_frame
    { n_bits := 1, buckets := [0, 0], cardinality := 7 }
    { n_bits := 1, buckets := [1, 0], cardinality := 7 }
    { n_bits := 1, buckets := [0, 0], cardinality := 7 }
    1 [] (by decide) (by decide)

/-- The Column struct of src/bustubx/src/catalog/column.rs: a name and a
data type.  The DataType enum is defined in catalog files that are not
under src/; D stands for it, assumed only to carry decidable equality (the
derived, structural PartialEq of a Rust fieldless enum). -/
structure Column (D : Type) where
  name : String
  data_type : D
deriving DecidableEq

/-- The PartialEq impl for Column: names equal and data types equal. -/
def Column.eq {D : Type} [DecidableEq D] (a b : Column D) : Bool :=
  (a.name == b.name) && (a.data_type == b.data_type)

/-- Claim C10: Column equality holds exactly when both the name and the
data type agree, and it is reflexive, symmetric and transitive. -/
theorem c10_column_eq (D : Type) [DecidableEq D] (a b c : Column D) :
    (Column.eq a b = true ↔ (a.name = b.name ∧ a.data_type = b.data_type)) ∧
    Column.eq a a = true ∧
    (Column.eq a b = true → Column.eq b a = true) ∧
    (Column.eq a b = true → Column.eq b c = true → Column.eq a c = true) := by
  have key : ∀ x y : Column D,
      Column.eq x y = true ↔ (x.name = y.name ∧ x.data_type = y.data_type) := by
    intro x y
    simp [Column.eq]
  refine ⟨key a b, ?_, ?_, ?_⟩
  · exact (key a a).mpr ⟨rfl, rfl⟩
  · intro h
    obtain ⟨h1, h2⟩ := (key a b).mp h
    exact (key b a).mpr ⟨h1.symm, h2.symm⟩
  · intro hab hbc
    obtain ⟨h1, h2⟩ := (key a b).mp hab
    obtain ⟨h3, h4⟩ := (key b c).mp hbc
    exact (key a c).mpr ⟨h1.trans h3, h2.trans h4⟩

/-- Modelled from the spec: one tracked frame of the LRU-K replacer (spec
section 4.2; the replacer implementation is not among the repository files
under src/).  It carries the frame identifier, the recorded access
timestamps, most recent first (record_access truncates to the last k), and
the evictable flag. -/
structure FrameEntry where
  fid : Nat
  history : List Nat
  evictable : Bool
deriving Repr, DecidableEq

/-- Modelled from the spec: the replacer state, with the history depth k,
the current logical timestamp and the tracked frames. -/
structure LRUKReplacer where
  k : Nat
  current_timestamp : Nat
  frames : List FrameEntry
deriving Repr, DecidableEq

/-- The earliest (least recent) recorded access of a frame, 0 when the
frame has no recorded access. -/
def FrameEntry.earliest (e : FrameEntry) : Nat :=
  (e.history.getLast?).getD 0

/-- The timestamp of the k-th most recent access of a frame (the history
is most recent first); meaningful when the frame has at least k accesses. -/
def kthRecent (r : LRUKReplacer) (e : FrameEntry) : Nat :=
  e.history.getD (r.k - 1) 0

/-- The backward k-distance of the spec: current timestamp minus the k-th
most recent access timestamp; none stands for +infinity (fewer than k
recorded accesses). -/
def backwardKDistance (r : LRUKReplacer) (e : FrameEntry) : Option Nat :=
  if r.k ≤ e.history.length then some (r.current_timestamp - kthRecent r e)
  else none

/-- The selection key evict minimizes.  Frames with fewer than k accesses
(+infinity distance) sort before full-history frames and are ordered by
their earliest overall access; full-history frames are ordered by the k-th
most recent access timestamp (minimizing that timestamp maximizes the
backward distance). -/
def evictKey (r : LRUKReplacer) (e : FrameEntry) : Nat × Nat :=
  if r.k ≤ e.history.length then (1, kthRecent r e) else (0, e.earliest)

def keyLt (a b : Nat × Nat) : Prop :=
  a.1 < b.1 ∨ (a.1 = b.1 ∧ a.2 < b.2)

def keyLe (a b : Nat × Nat) : Prop :=
  a.1 < b.1 ∨ (a.1 = b.1 ∧ a.2 ≤ b.2)

instance keyLt.dec (a b : Nat × Nat) : Decidable (keyLt a b) :=
  inferInstanceAs (Decidable (a.1 < b.1 ∨ (a.1 = b.1 ∧ a.2 < b.2)))

/-- One comparison step of the victim scan: the challenger e replaces the
best frame so far exactly when its key is strictly smaller, so the
earliest-scanned frame wins exact ties. -/
def pickBetter (r : LRUKReplacer) (best e : FrameEntry) : FrameEntry :=
  if keyLt (evictKey r e) (evictKey r best) then e else best

/-- Modelled from the spec: evict() scans the evictable frames and selects
the one with maximal backward k-distance under the spec's tie-breaks,
returning none when no frame is evictable. -/
def LRUKReplacer.evict (r : LRUKReplacer) : Option Nat :=
  match r.frames.filter (fun e => e.evictable) with
  | [] => none
  | e :: es => some ((es.foldl (pickBetter r) e).fid)

/-- The spec's selection rule stated pointwise: e is preferred over (or
tied with) g.  A +infinity distance beats every finite one; among
+infinity frames the earlier overall access wins; among finite frames the
distance of e is maximal and on equal distances the earlier k-th most
recent access wins. -/
def PreferredOver (r : LRUKReplacer) (e g : FrameEntry) : Prop :=
  match backwardKDistance r e, backwardKDistance r g with
  | none, none => e.earliest ≤ g.earliest
  | none, some _ => True
  | some _, none => False
  | some de, some dg => dg ≤ de ∧ (dg = de → kthRecent r e ≤ kthRecent r g)

theorem keyLe_refl (a : Nat × Nat) : keyLe a a := by
  unfold keyLe
  omega

theorem keyLe_trans {a b c : Nat × Nat} (h1 : keyLe a b) (h2 : keyLe b c) :
    keyLe a c := by
  unfold keyLe at h1 h2 ⊢
  omega

theorem keyLe_of_keyLt {a b : Nat × Nat} (h : keyLt a b) : keyLe a b := by
  unfold keyLt at h
  unfold keyLe
  omega

theorem keyLe_of_not_keyLt {a b : Nat × Nat} (h : ¬ keyLt a b) : keyLe b a := by
  unfold keyLt at h
  unfold keyLe
  omega

theorem foldl_pickBetter_spec (r : LRUKReplacer) (es : List FrameEntry)
    (e : FrameEntry) :
    (es.foldl (pickBetter r) e = e ∨ es.foldl (pickBetter r) e ∈ es) ∧
    keyLe (evictKey r (es.foldl (pickBetter r) e)) (evictKey r e) ∧
    (∀ g ∈ es, keyLe (evictKey r (es.foldl (pickBetter r) e)) (evictKey r g)) := by
  induction es generalizing e with
  | nil =>
    refine ⟨Or.inl rfl, keyLe_refl _, ?_⟩
    intro g hg
    simp at hg
  | cons a t ih =>
    have step : (a :: t).foldl (pickBetter r) e = t.foldl (pickBetter r) (pickBetter r e a) := rfl
    obtain ⟨ihmem, ihle, ihall⟩ := ih (pickBetter r e a)
    have hba : keyLe (evictKey r (pickBetter r e a)) (evictKey r a) ∧
        keyLe (evictKey r (pickBetter r e a)) (evictKey r e) := by
      unfold pickBetter
      by_cases hlt : keyLt (evictKey r a) (evictKey r e)
      · rw [if_pos hlt]
        exact ⟨keyLe_refl _, keyLe_of_keyLt hlt⟩
      · rw [if_neg hlt]
        exact ⟨keyLe_of_not_keyLt hlt, keyLe_refl _⟩
    have hmemba : pickBetter r e a = e ∨ pickBetter r e a = a := by
      unfold pickBetter
      by_cases hlt : keyLt (evictKey r a) (evictKey r e)
      · rw [if_pos hlt]; exact Or.inr rfl
      · rw [if_neg hlt]; exact Or.inl rfl
    rw [step]
    refine ⟨?_, ?_, ?_⟩
    · rcases ihmem with hres | hres
      · rw [hres]
        rcases hmemba with hb | hb
        · exact Or.inl hb
        · exact Or.inr (by rw [hb]; exact List.mem_cons_self a t)
      · exact Or.inr (List.mem_cons_of_mem a hres)
    · exact keyLe_trans ihle hba.2
    · intro g hg
      rcases List.mem_cons.mp hg with hgg | hgg
      · rw [hgg]
        exact keyLe_trans ihle hba.1
      · exact ihall g hgg

theorem preferred_of_keyLe (r : LRUKReplacer) (e g : FrameEntry)
    (h : keyLe (evictKey r e) (evictKey r g)) : PreferredOver r e g := by
  unfold keyLe evictKey at h
  unfold PreferredOver backwardKDistance
  by_cases he : r.k ≤ e.history.length <;> by_cases hg : r.k ≤ g.history.length
  · rw [if_pos he] at h ⊢
    rw [if_pos hg] at h ⊢
    simp only at h
    have hk : kthRecent r e ≤ kthRecent r g := by omega
    exact ⟨Nat.sub_le_sub_left hk r.current_timestamp, fun _ => hk⟩
  · rw [if_pos he] at h ⊢
    rw [if_neg hg] at h ⊢
    simp only at h
    omega
  · rw [if_neg he] at h ⊢
    rw [if_pos hg] at h ⊢
    simp only
  · rw [if_neg he] at h ⊢
    rw [if_neg hg] at h ⊢
    simp only at h ⊢
    omega

/-- Claim C3: among the frames marked evictable, evict selects one with
maximum backward k-distance (+infinity for frames with fewer than k
recorded accesses), breaking ties among +infinity frames by the earliest
overall access timestamp and ties among finite-distance frames by the
earliest k-th most recent timestamp; and it returns none exactly when no
frame is evictable. -/
theorem c3_evict_rule (r : LRUKReplacer) :
    (LRUKReplacer.evict r = none ↔ ∀ e ∈ r.frames, e.evictable = false) ∧
    (∀ f, LRUKReplacer.evict r = some f →
      ∃ e ∈ r.frames, e.evictable = true ∧ e.fid = f ∧
        ∀ g ∈ r.frames, g.evictable = true → PreferredOver r e g) := by
  cases hf : r.frames.filter (fun e => e.evictable) with
  | nil =>
    constructor
    · constructor
      · intro _ e he
        have hne := List.filter_eq_nil_iff.mp hf e he
        simpa using hne
      · intro _
        unfold LRUKReplacer.evict
        rw [hf]
    · intro f hev
      unfold LRUKReplacer.evict at hev
      rw [hf] at hev
      exact absurd hev (by simp)
  | cons a t =>
    have hamem : a ∈ r.frames.filter (fun e => e.evictable) := by
      rw [hf]
      exact List.mem_cons_self a t
    have haf := List.mem_filter.mp hamem
    constructor
    · constructor
      · intro hev
        unfold LRUKReplacer.evict at hev
        rw [hf] at hev
        exact absurd hev (by simp)
      · intro hall
        have := hall a haf.1
        rw [haf.2] at this
        exact absurd this (by simp)
    · intro f hev
      unfold LRUKReplacer.evict at hev
      rw [hf] at hev
      simp only [Option.some.injEq] at hev
      obtain ⟨hmem, hle, hall⟩ := foldl_pickBetter_spec r t a
      have hresfil : t.foldl (pickBetter r) a ∈ r.frames.filter (fun e => e.evictable) := by
        rw [hf]
        rcases hmem with hres | hres
        · rw [hres]; exact List.mem_cons_self a t
        · exact List.mem_cons_of_mem a hres
      have hresf := List.mem_filter.mp hresfil
      refine ⟨t.foldl (pickBetter r) a, hresf.1, by simpa using hresf.2, hev, ?_⟩
      intro g hg hge
      have hgfil : g ∈ r.frames.filter (fun e => e.evictable) :=
        List.mem_filter.mpr ⟨hg, by simp [hge]⟩
      rw [hf] at hgfil
      rcases List.mem_cons.mp hgfil with hgg | hgg
      · rw [hgg]
        exact preferred_of_keyLe r _ a hle
      · exact preferred_of_keyLe r _ g (hall g hgg)

/-- A concrete replacer state: the spec's own LRU-K determinism example
with k = 2, frame 1 accessed at times 1 and 3 (finite backward distance),
frame 2 accessed once at time 2 (+infinity backward distance), both
evictable; evict must select frame 2. -/
def exampleReplacer : LRUKReplacer :=
  { k := 2
    current_timestamp := 4
    frames := [{ fid := 1, history := [3, 1], evictable := true }, { fid := 2, history := [2], evictable := true }] }

/-- Claim C3, witness: the selection theorem applied to the concrete
replacer state, where evict evaluates to frame 2. -/
theorem c3_evict_rule_witness :
    ∃ e ∈ exampleReplacer.frames, e.evictable = true ∧ e.fid = 2 ∧
      ∀ g ∈ exampleReplacer.frames, g.evictable = true →
        PreferredOver exampleReplacer e g :=
  (c3_evict_rule exampleReplacer).2 2 (by decide)
